import Mathlib

/-!
Shallow embedding of the `progjar_5025221159` HTTP file server
(`src/progjar5/http.py`, `src/progjar5/server_thread_pool_http.py`,
`src/progjar5/server_process_pool_http.py`).

Python byte strings (`bytes`) are modelled as `List Nat` of byte values;
Python text strings (`str`) are modelled as `List Nat` of Unicode code
points.  `str.encode` / `bytes.decode` with the (strict) `utf-8` codec
are modelled by an explicit UTF-8 encoder and decoder.  Clock reads,
exception message rendering and file-system failure are supplied through
an explicit environment record.
-/

namespace Progjar5

/-- Code points of a Lean string literal; used to inject Python string
literals from the source into the model. -/
def strCodes (s : String) : List Nat := s.data.map Char.toNat

/-- `l` begins with `p` (Python `startswith` / used to model searching). -/
def listStartsWith (p l : List Nat) : Bool := decide (l.take p.length = p)

/-- `l` ends with `sfx` (Python `bytes.endswith`). -/
def listEndsWith (sfx l : List Nat) : Bool := listStartsWith sfx.reverse l.reverse

/-- Python `needle in hay` on bytes/str (substring containment). -/
def listContains (needle : List Nat) : List Nat → Bool
  | [] => listStartsWith needle []
  | a :: rest => listStartsWith needle (a :: rest) || listContains needle rest

/-- Python `hay.find(needle)`: index of the leftmost occurrence
(`none` models the return value `-1`). -/
def findSub (needle : List Nat) : List Nat → Option Nat
  | [] => if needle = [] then some 0 else none
  | a :: rest =>
    if listStartsWith needle (a :: rest) then some 0
    else (findSub needle rest).map (· + 1)

/-- Worker for `splitSep`; `acc` holds the chunk read so far.  `fuel` is
structural-recursion fuel: any `fuel ≥ l.length` gives the intended
result (each step consumes at least one list element). -/
def splitSepAux (sep : List Nat) : Nat → List Nat → List Nat → List (List Nat)
  | 0, acc, l => [acc ++ l]
  | fuel + 1, acc, l =>
    match l with
    | [] => [acc]
    | a :: rest =>
      if listStartsWith sep (a :: rest) then
        acc :: splitSepAux sep fuel [] (rest.drop (sep.length - 1))
      else
        splitSepAux sep fuel (acc ++ [a]) rest

/-- Python `x.split(sep)` for a non-empty separator (`bytes.split` and
`str.split` behave alike): split at every non-overlapping occurrence,
scanning left to right. -/
def splitSep (sep l : List Nat) : List (List Nat) := splitSepAux sep l.length [] l

/-- Python `os.path.basename` (posix): everything after the last `/`. -/
def basename (s : List Nat) : List Nat :=
  (s.reverse.takeWhile (fun c => !(c == 47))).reverse

/-- ASCII-range model of Python `str.upper` on one code point. -/
def upperChar (c : Nat) : Nat := if 97 ≤ c ∧ c ≤ 122 then c - 32 else c

/-- ASCII-range model of Python `str.upper` (the source only compares the
result against the ASCII literals POST/GET/DELETE). -/
def pyUpper (s : List Nat) : List Nat := s.map upperChar

/-- ASCII-range model of Python `str.lower` on one code point. -/
def lowerChar (c : Nat) : Nat := if 65 ≤ c ∧ c ≤ 90 then c + 32 else c

/-- ASCII-range model of Python `str.lower`. -/
def pyLower (s : List Nat) : List Nat := s.map lowerChar

/-- Code points Python `str.strip` removes (`str.isspace`). -/
def isPySpaceB (c : Nat) : Bool :=
  c == 9 || c == 10 || c == 11 || c == 12 || c == 13 || c == 28 || c == 29 ||
  c == 30 || c == 31 || c == 32 || c == 133 || c == 160 || c == 5760 ||
  (8192 ≤ c && c ≤ 8202) || c == 8232 || c == 8233 || c == 8239 ||
  c == 8287 || c == 12288

/-- Python `str.strip()`. -/
def pyStrip (s : List Nat) : List Nat :=
  ((s.dropWhile isPySpaceB).reverse.dropWhile isPySpaceB).reverse

/-- Worker for `natToStr`; the first argument is structural-recursion
fuel (any `fuel ≥ n` gives the intended result since `n / 10 < n`). -/
def natToStrAux : Nat → Nat → List Nat → List Nat
  | 0, _, acc => acc
  | fuel + 1, n, acc =>
    if n = 0 then acc else natToStrAux fuel (n / 10) ((48 + n % 10) :: acc)

/-- Python `str(n)` for a non-negative integer, as code points. -/
def natToStr (n : Nat) : List Nat := if n = 0 then [48] else natToStrAux n n []

/-- UTF-8 encoding of one code point (as produced by `str.encode`). -/
def utf8EncodeChar (c : Nat) : List Nat :=
  if c < 128 then [c]
  else if c < 2048 then [192 + c / 64, 128 + c % 64]
  else if c < 65536 then [224 + c / 4096, 128 + c / 64 % 64, 128 + c % 64]
  else [240 + c / 262144, 128 + c / 4096 % 64, 128 + c / 64 % 64, 128 + c % 64]

/-- Python `s.encode("utf-8")`: code points to bytes. -/
def utf8Encode : List Nat → List Nat
  | [] => []
  | c :: rest => utf8EncodeChar c ++ utf8Encode rest

/-- A UTF-8 continuation byte. -/
def isCont (b : Nat) : Bool := 128 ≤ b && b ≤ 191

/-- One 2-byte UTF-8 sequence with lead byte `b` (`194 ≤ b < 224`):
the decoded code point and the remaining bytes, or `none` on an invalid
or truncated continuation. -/
def utf8Step2 (b : Nat) : List Nat → Option (Nat × List Nat)
  | b2 :: rest2 =>
    if isCont b2 then some ((b - 192) * 64 + (b2 - 128), rest2) else none
  | [] => none

/-- One 3-byte UTF-8 sequence with lead byte `b` (`224 ≤ b < 240`);
the second-byte range depends on the lead (rejecting overlong forms and
surrogates, as the strict codec does). -/
def utf8Step3 (b : Nat) : List Nat → Option (Nat × List Nat)
  | b2 :: b3 :: rest3 =>
    if (if b = 224 then 160 ≤ b2 && b2 ≤ 191
        else if b = 237 then 128 ≤ b2 && b2 ≤ 159
        else isCont b2) && isCont b3 then
      some ((b - 224) * 4096 + (b2 - 128) * 64 + (b3 - 128), rest3)
    else none
  | _ => none

/-- One 4-byte UTF-8 sequence with lead byte `b` (`240 ≤ b < 245`);
the second-byte range depends on the lead (rejecting overlong forms and
code points beyond U+10FFFF). -/
def utf8Step4 (b : Nat) : List Nat → Option (Nat × List Nat)
  | b2 :: b3 :: b4 :: rest4 =>
    if (if b = 240 then 144 ≤ b2 && b2 ≤ 191
        else if b = 244 then 128 ≤ b2 && b2 ≤ 143
        else isCont b2) && isCont b3 && isCont b4 then
      some ((b - 240) * 262144 + (b2 - 128) * 4096 + (b3 - 128) * 64 + (b4 - 128), rest4)
    else none
  | _ => none

/-- Worker for `utf8Decode`.  The first argument is structural-recursion
fuel: every decoded character consumes at least one byte and one unit of
fuel, so any `fuel ≥ l.length` gives the intended result and the
fuel-exhausted branch is never taken. -/
def utf8DecodeAux : Nat → List Nat → Option (List Nat)
  | _, [] => some []
  | 0, _ :: _ => none
  | fuel + 1, b :: rest =>
    if b < 128 then
      match utf8DecodeAux fuel rest with
      | some cs => some (b :: cs)
      | none => none
    else if b < 194 then none
    else
      match (if b < 224 then utf8Step2 b rest
             else if b < 240 then utf8Step3 b rest
             else if b < 245 then utf8Step4 b rest
             else none) with
      | some (cp, rest2) =>
        match utf8DecodeAux fuel rest2 with
        | some cs => some (cp :: cs)
        | none => none
      | none => none

/-- Python `b.decode("utf-8")` with the default strict error handler:
`none` models a raised `UnicodeDecodeError` (overlong forms, surrogates,
out-of-range and truncated sequences are all rejected). -/
def utf8Decode (l : List Nat) : Option (List Nat) := utf8DecodeAux l.length l


/-!
 ## Model of `src/progjar5/http.py` (`AdvancedHttpProcessor`)

Effects are made explicit: the clock (`datetime.now`), the rendering of
caught exception objects (`str(e)`) and the possibility of file-system
failure arrive through an `Env` record, and the storage directory is an
association list from file name (code points) to file content (bytes)
threaded through the handlers.
-/

/-- Ambient effects of the Python code: the current Unix timestamp
(`int(datetime.now().timestamp())`), the formatted `Date` header string
(`datetime.now().strftime(...)`), whether file-system calls raise
(`OSError` from `open`/`read`/`write`/`os.remove`/`os.listdir`), and the
interpreter rendering `str(e)` of a caught exception. -/
structure Env where
  now : Nat
  dateStr : List Nat
  ioError : Bool
  errText : List Nat
deriving DecidableEq

/-- The flat storage directory: file name (code points) to content
(bytes).  `initialize_storage` only creates the directory, so the model
starts from any list. -/
abbrev FileStore := List (List Nat × List Nat)

/-- Reading a stored file (`open(path, "rb").read()` guarded by
`os.path.isfile`): `none` when no such file exists. -/
def fsRead (fs : FileStore) (k : List Nat) : Option (List Nat) :=
  (fs.find? (fun e => e.1 == k)).map (·.2)

/-- Writing a stored file (`open(path, "wb").write(data)`): overwrites
any file of the same name. -/
def fsWrite (fs : FileStore) (k v : List Nat) : FileStore :=
  fs.filter (fun e => !(e.1 == k)) ++ [(k, v)]

/-- `os.remove` on a stored file. -/
def fsRemove (fs : FileStore) (k : List Nat) : FileStore :=
  fs.filter (fun e => !(e.1 == k))

/-- A Python value that is either `bytes` or `str`, as accepted by the
`content` parameter of `build_response`. -/
inductive PyContent where
  | bytes (b : List Nat)
  | str (s : List Nat)
deriving DecidableEq

/-- Python `len(content)` as evaluated at `http.py:53`: byte count for
`bytes`, code-point count for `str`. -/
def pyLen : PyContent → Nat
  | .bytes b => b.length
  | .str s => s.length

/-- The body bytes that reach the wire (`http.py:63-67`): `bytes` pass
through, `str` is UTF-8 encoded. -/
def contentBytes : PyContent → List Nat
  | .bytes b => b
  | .str s => utf8Encode s

/-- The response assembled by `build_response` (`http.py:44-67`), kept in
structured form; `responseWire` below renders the exact byte sequence.
`content_length` is the number written into the `Content-Length` header,
which the source computes as `len(content)` before the encoding step. -/
structure BuiltResponse where
  status_code : Nat
  status_text : List Nat
  date : List Nat
  content_length : Nat
  extra_headers : List (List Nat × List Nat)
  body : List Nat
deriving DecidableEq

/-- `AdvancedHttpProcessor.build_response` (`http.py:44-67`). -/
def build_response (env : Env) (status_code : Nat) (status_text : List Nat)
    (content : PyContent) (extra_headers : List (List Nat × List Nat)) : BuiltResponse :=
  { status_code := status_code
    status_text := status_text
    date := env.dateStr
    content_length := pyLen content
    extra_headers := extra_headers
    body := contentBytes content }

/-- `"\r\n"`. -/
def crlf : List Nat := [13, 10]

/-- The header section string built at `http.py:48-61` (code points):
status line, `Date`, `Connection: close`, `Server`, `Content-Length`,
the extra headers, and the blank line. -/
def headerString (r : BuiltResponse) : List Nat :=
  strCodes "HTTP/1.1 " ++ natToStr r.status_code ++ [32] ++ r.status_text ++ crlf ++
  strCodes "Date: " ++ r.date ++ crlf ++
  strCodes "Connection: close" ++ crlf ++
  strCodes "Server: AdvancedHttpServer/1.5" ++ crlf ++
  strCodes "Content-Length: " ++ natToStr r.content_length ++ crlf ++
  (r.extra_headers.map (fun kv => kv.1 ++ strCodes ": " ++ kv.2 ++ crlf)).foldr
    (fun a b => a ++ b) [] ++
  crlf

/-- The byte sequence returned by `build_response`
(`header_section.encode("utf-8") + content`, `http.py:67`). -/
def responseWire (r : BuiltResponse) : List Nat :=
  utf8Encode (headerString r) ++ r.body

/-- `re.search` with the bytes pattern `filename="([^"]*)"` applied to `part` (`http.py:80-81`, also the
`Content-Disposition` fallback at `http.py:182` on code points): leftmost
occurrence of the literal `filename="` that is followed by a closing
quote; the capture is everything up to that quote. -/
def regexFilename : List Nat → Option (List Nat)
  | [] => none
  | a :: rest =>
    if listStartsWith (strCodes "filename=\"") (a :: rest) then
      let after := (a :: rest).drop 10
      match findSub [34] after with
      | some j => some (after.take j)
      | none => regexFilename rest
    else regexFilename rest

/-- `re.search` with pattern `boundary=([^;]+)` applied to `content_type` (`http.py:166`):
leftmost occurrence of `boundary=` followed by at least one character
other than `;`; the capture is the maximal run of such characters. -/
def regexBoundary : List Nat → Option (List Nat)
  | [] => none
  | a :: rest =>
    if listStartsWith (strCodes "boundary=") (a :: rest) then
      let capture := ((a :: rest).drop 9).takeWhile (fun c => !(c == 59))
      if capture = [] then regexBoundary rest else some capture
    else regexBoundary rest

/-- The `for part in form_parts` loop of `parse_form_data`
(`http.py:77-101`).  A `UnicodeDecodeError` from decoding the filename
propagates to the enclosing `except` which returns `(None, None)`, hence
the `none` result there rather than a skip. -/
def parseFormLoop : List (List Nat) → Option (List Nat × List Nat)
  | [] => none
  | part :: rest =>
    if listContains (strCodes "Content-Disposition") part &&
       listContains (strCodes "filename=") part then
      match regexFilename part with
      | none => parseFormLoop rest
      | some fnBytes =>
        match utf8Decode fnBytes with
        | none => none
        | some fname =>
          let filename := basename fname
          match findSub [13, 10, 13, 10] part with
          | none => parseFormLoop rest
          | some pos =>
            let fc := part.drop (pos + 4)
            let fc := if listEndsWith [13, 10] fc then fc.take (fc.length - 2) else fc
            some (filename, fc)
    else parseFormLoop rest

/-- `AdvancedHttpProcessor.parse_form_data` (`http.py:69-105`) with the
boundary already in byte form (`http.py:72-73` encodes a `str` boundary
before use; callers in this model pass `utf8Encode boundary`).
`none` models the `(None, None)` return. -/
def parse_form_data (request_body boundary_string : List Nat) :
    Option (List Nat × List Nat) :=
  parseFormLoop (splitSep ([45, 45] ++ boundary_string) request_body)

/-- Characterization predicate: the part makes `parseFormLoop` abort
with `(None, None)` (it has the two substrings and a quoted filename
attribute, but the attribute bytes are not valid UTF-8, raising
`UnicodeDecodeError` into the enclosing `except`). -/
def partAborts (p : List Nat) : Bool :=
  listContains (strCodes "Content-Disposition") p &&
  listContains (strCodes "filename=") p &&
  (match regexFilename p with
   | some fb => (utf8Decode fb).isNone
   | none => false)

/-- Characterization predicate: the part is the kind `parseFormLoop`
returns a result from (both substrings, a quoted filename attribute
whose bytes decode, and a `\r\n\r\n` separator). -/
def partSucceeds (p : List Nat) : Bool :=
  listContains (strCodes "Content-Disposition") p &&
  listContains (strCodes "filename=") p &&
  (match regexFilename p with
   | some fb => (utf8Decode fb).isSome
   | none => false) &&
  (findSub [13, 10, 13, 10] p).isSome

/-- The filename `parse_form_data` extracts from a succeeding part:
the decoded quoted attribute reduced to its final path segment. -/
def partFilename (p : List Nat) : List Nat :=
  basename ((utf8Decode ((regexFilename p).getD [])).getD [])

/-- The content `parse_form_data` extracts from a succeeding part:
everything after the first `\r\n\r\n`, with one trailing `\r\n`
stripped if present. -/
def partContent (p : List Nat) : List Nat :=
  let fc := p.drop (((findSub [13, 10, 13, 10] p).getD 0) + 4)
  if listEndsWith [13, 10] fc then fc.take (fc.length - 2) else fc

/-- Body of the C7 counterexample: two parts carrying `filename="a"`
and `filename="b"`; the first has no `\r\n\r\n` separator. -/
def c7Body : List Nat :=
  strCodes "--B\r\nContent-Disposition: form-data; filename=\"a\"--B\r\nContent-Disposition: form-data; filename=\"b\"\r\n\r\nDATA\r\n--B--"

/-- First part of `c7Body` under the split on `--B`. -/
def c7PartA : List Nat := strCodes "\r\nContent-Disposition: form-data; filename=\"a\""

/-- Second part of `c7Body` under the split on `--B`. -/
def c7PartB : List Nat :=
  strCodes "\r\nContent-Disposition: form-data; filename=\"b\"\r\n\r\nDATA\r\n"

/-- `headers_dict.get(key)` for the header dictionary: the dictionary is
built by insertion with overwrite, so the last binding wins. -/
def hdrGet (hs : List (List Nat × List Nat)) (k : List Nat) : Option (List Nat) :=
  hs.foldl (fun acc kv => if kv.1 == k then some kv.2 else acc) none

/-- The filename sanitization of `handle_upload` (`http.py:195-198`):
final path segment only; empty or dot-leading segments are replaced by
the generated `file_<unix-timestamp>` name. -/
def safeFilename (env : Env) (filename : List Nat) : List Nat :=
  if basename filename = [] ∨ (basename filename).headD 0 = 46 then
    strCodes "file_" ++ natToStr env.now
  else basename filename

/-- The shared tail of `handle_upload` (`http.py:191-209`): filename
validation, sanitization, the write to storage, and the `201` (or the
`500` produced by the enclosing `except` when the write raises). -/
def uploadFinish (env : Env) (fs : FileStore) (filename file_data : List Nat) :
    BuiltResponse × FileStore :=
  if filename = [] then
    (build_response env 400 (strCodes "Bad Request")
      (.str (strCodes "Filename is required")) [], fs)
  else
    let safe := safeFilename env filename
    if env.ioError then
      (build_response env 500 (strCodes "Internal Server Error")
        (.str (strCodes "Upload failed: " ++ env.errText)) [], fs)
    else
      (build_response env 201 (strCodes "Created")
        (.str (strCodes "File " ++ safe ++ strCodes " uploaded successfully (" ++
          natToStr file_data.length ++ strCodes " bytes)")) [],
       fsWrite fs safe file_data)

/-- `AdvancedHttpProcessor.handle_upload` (`http.py:159-209`). -/
def handle_upload (env : Env) (headers_dict : List (List Nat × List Nat))
    (request_body : List Nat) (fs : FileStore) : BuiltResponse × FileStore :=
  let content_type := (hdrGet headers_dict (strCodes "content-type")).getD []
  if listContains (strCodes "multipart/form-data") content_type then
    match regexBoundary content_type with
    | none =>
      (build_response env 400 (strCodes "Bad Request")
        (.str (strCodes "Boundary not found in multipart request")) [], fs)
    | some boundary =>
      match parse_form_data request_body (utf8Encode boundary) with
      | none =>
        (build_response env 400 (strCodes "Bad Request")
          (.str (strCodes "No valid file found in request")) [], fs)
      | some (filename, file_data) =>
        if filename = [] then
          (build_response env 400 (strCodes "Bad Request")
            (.str (strCodes "No valid file found in request")) [], fs)
        else uploadFinish env fs filename file_data
  else
    let fn0 := (hdrGet headers_dict (strCodes "x-upload-filename")).getD []
    let fn1 :=
      if fn0 = [] then
        ((regexFilename ((hdrGet headers_dict (strCodes "content-disposition")).getD []))).getD []
      else fn0
    let filename :=
      if fn1 = [] then strCodes "uploaded_file_" ++ natToStr env.now else fn1
    uploadFinish env fs filename request_body

/-- The extension-to-MIME table built in `__init__` (`http.py:17-35`). -/
def content_type_mappings : List (List Nat × List Nat) :=
  [ (strCodes ".pdf", strCodes "application/pdf"),
    (strCodes ".jpg", strCodes "image/jpeg"),
    (strCodes ".jpeg", strCodes "image/jpeg"),
    (strCodes ".png", strCodes "image/png"),
    (strCodes ".gif", strCodes "image/gif"),
    (strCodes ".txt", strCodes "text/plain"),
    (strCodes ".html", strCodes "text/html"),
    (strCodes ".htm", strCodes "text/html"),
    (strCodes ".css", strCodes "text/css"),
    (strCodes ".js", strCodes "application/javascript"),
    (strCodes ".json", strCodes "application/json"),
    (strCodes ".xml", strCodes "application/xml"),
    (strCodes ".zip", strCodes "application/zip"),
    (strCodes ".rar", strCodes "application/x-rar-compressed"),
    (strCodes ".doc", strCodes "application/msword"),
    (strCodes ".docx",
      strCodes "application/vnd.openxmlformats-officedocument.wordprocessingml.document"),
    (strCodes ".bin", strCodes "application/octet-stream") ]

/-- `p.rfind(c)` for a single character: index of the rightmost
occurrence. -/
def rfindChar (c : Nat) (p : List Nat) : Option Nat :=
  (findSub [c] p.reverse).map (fun i => p.length - 1 - i)

/-- `os.path.splitext` (posix semantics): split off the extension after
the last dot, unless the name segment before it consists only of dots. -/
def pySplitext (p : List Nat) : List Nat × List Nat :=
  match rfindChar 46 p with
  | none => (p, [])
  | some d =>
    let s := match rfindChar 47 p with | none => 0 | some j => j + 1
    if d < s then (p, [])
    else if ((p.drop s).take (d - s)).all (fun c => c == 46) then (p, [])
    else (p.take d, p.drop d)

/-- MIME resolution of `handle_get` (`http.py:251-252`):
`content_type_mappings.get(ext, "application/octet-stream")`. -/
def mimeFor (name : List Nat) : List Nat :=
  (hdrGet content_type_mappings (pyLower (pySplitext name).2)).getD
    (strCodes "application/octet-stream")

/-- `AdvancedHttpProcessor.handle_get` (`http.py:211-257`).  The
`headers_dict` parameter is unused, exactly as in the source.
`os.listdir` order is modelled as store order. -/
def handle_get (env : Env) (fs : FileStore) (request_path : List Nat)
    (_headers_dict : List (List Nat × List Nat)) : BuiltResponse :=
  if request_path = strCodes "/" then
    build_response env 200 (strCodes "OK")
      (.str (strCodes "Advanced HTTP File Server - Upload files to /file-upload")) []
  else if request_path = strCodes "/redirect" then
    build_response env 302 (strCodes "Found") (.str [])
      [(strCodes "Location", strCodes "https://youtu.be/dQw4w9WgXcQ")]
  else if request_path = strCodes "/status" then
    build_response env 200 (strCodes "OK") (.str (strCodes "Server is running normally")) []
  else if request_path = strCodes "/directory" then
    if env.ioError then
      build_response env 500 (strCodes "Server Error") (.str env.errText) []
    else
      let file_entries := fs.map (fun kv =>
        kv.1 ++ strCodes " (" ++ natToStr kv.2.length ++ strCodes " bytes)")
      let file_listing :=
        if file_entries = [] then strCodes "No files in directory"
        else List.intercalate [10] file_entries
      build_response env 200 (strCodes "OK") (.str file_listing)
        [(strCodes "Content-Type", strCodes "text/plain")]
  else
    let requested_file := request_path.drop 1
    match fsRead fs requested_file with
    | none =>
      build_response env 404 (strCodes "Not Found")
        (.str (strCodes "File " ++ requested_file ++ strCodes " not found")) []
    | some file_content =>
      if requested_file = [] then
        build_response env 404 (strCodes "Not Found")
          (.str (strCodes "File " ++ requested_file ++ strCodes " not found")) []
      else if env.ioError then
        build_response env 500 (strCodes "Internal Server Error") (.str env.errText) []
      else
        build_response env 200 (strCodes "OK") (.bytes file_content)
          [(strCodes "Content-Type", mimeFor requested_file)]

/-- `AdvancedHttpProcessor.handle_delete` (`http.py:259-273`). -/
def handle_delete (env : Env) (fs : FileStore) (request_path : List Nat)
    (_headers_dict : List (List Nat × List Nat)) : BuiltResponse × FileStore :=
  let requested_file := request_path.drop 1
  if requested_file = [] ∨ (fsRead fs requested_file).isNone then
    (build_response env 404 (strCodes "Not Found")
      (.str (strCodes "File " ++ requested_file ++ strCodes " not found")) [], fs)
  else if env.ioError then
    (build_response env 500 (strCodes "Internal Server Error") (.str env.errText) [], fs)
  else
    (build_response env 200 (strCodes "OK")
      (.str (strCodes "File " ++ requested_file ++ strCodes " deleted successfully")) [],
     fsRemove fs requested_file)

/-- Header parsing of `handle_request` (`http.py:134-138`): lines with a
colon are split at the first colon, keys stripped and lower-cased,
values stripped; later duplicates overwrite (`hdrGet` reads the last
binding). -/
def parseHeaders (lines : List (List Nat)) : List (List Nat × List Nat) :=
  lines.foldl (fun acc line =>
    if line.any (fun c => c == 58) then
      acc ++ [(pyLower (pyStrip (line.takeWhile (fun c => !(c == 58)))),
               pyStrip ((line.dropWhile (fun c => !(c == 58))).drop 1))]
    else acc) []

/-- The routing block of `handle_request` (`http.py:143-150`), after the
method has been upper-cased. -/
def route (env : Env) (fs : FileStore) (http_method request_path : List Nat)
    (request_headers : List (List Nat × List Nat)) (request_body : List Nat) :
    BuiltResponse × FileStore :=
  if http_method = strCodes "POST" ∧ request_path = strCodes "/file-upload" then
    handle_upload env request_headers request_body fs
  else if http_method = strCodes "GET" then
    (handle_get env fs request_path request_headers, fs)
  else if http_method = strCodes "DELETE" then
    handle_delete env fs request_path request_headers
  else
    (build_response env 405 (strCodes "Method Not Allowed")
      (.str (strCodes "HTTP method not supported")) [], fs)

/-- `AdvancedHttpProcessor.handle_request` (`http.py:107-157`) on a
`bytes` input.  The decode-failure branch models the
`UnicodeDecodeError` caught at `http.py:152`; its body interpolates
`str(decode_error)`, supplied by `env.errText`. -/
def handle_request (env : Env) (fs : FileStore) (request_data : List Nat) :
    BuiltResponse × FileStore :=
  match findSub [13, 10, 13, 10] request_data with
  | none =>
    (build_response env 400 (strCodes "Bad Request")
      (.str (strCodes "Malformed HTTP request")) [], fs)
  | some header_boundary =>
    let header_section := request_data.take header_boundary
    let request_body := request_data.drop (header_boundary + 4)
    match utf8Decode header_section with
    | none =>
      (build_response env 400 (strCodes "Bad Request")
        (.str (strCodes "Request parsing error: " ++ env.errText)) [], fs)
    | some headerText =>
      let header_lines := splitSep [13, 10] headerText
      let request_line_parts := splitSep [32] (header_lines.headD [])
      if request_line_parts.length < 3 then
        (build_response env 400 (strCodes "Bad Request")
          (.str (strCodes "Invalid HTTP request line")) [], fs)
      else
        route env fs (pyUpper (request_line_parts.headD []))
          (request_line_parts.getD 1 []) (parseHeaders (header_lines.drop 1))
          request_body

/-- ASCII letter test (both cases). -/
def isAsciiLetterB (c : Nat) : Bool :=
  (decide (65 ≤ c) && decide (c ≤ 90)) || (decide (97 ≤ c) && decide (c ≤ 122))

/-- Two bytes that differ at most in ASCII letter case (the equal case
is restricted to printable non-delimiter ASCII so that the method token
stays a single token of the request line). -/
def charCaseEq (a b : Nat) : Bool :=
  (isAsciiLetterB a && isAsciiLetterB b && (upperChar a == upperChar b)) ||
  (a == b && decide (a < 128) && !(a == 13) && !(a == 10) && !(a == 32))

/-- Two method tokens that differ only in ASCII letter case. -/
def methodCaseEq : List Nat → List Nat → Bool
  | [], [] => true
  | a :: as, b :: bs => charCaseEq a b && methodCaseEq as bs
  | _, _ => false

/-- The remainder of `handle_request` once the request buffer has been
recognized as an (already upper-cased) method token `M` followed by a
space and `tail`: the method influences the outcome only through the
`route` dispatch.  `handle_request_method_extract` proves that
`handle_request` on `m ++ 32 :: tail` computes exactly this with
`M = pyUpper m`. -/
def handleRequestAfterMethod (env : Env) (fs : FileStore) (M : List Nat)
    (tail : List Nat) : BuiltResponse × FileStore :=
  match findSub [13, 10, 13, 10] (32 :: tail) with
  | none =>
    (build_response env 400 (strCodes "Bad Request")
      (.str (strCodes "Malformed HTTP request")) [], fs)
  | some i =>
    match utf8Decode ((32 :: tail).take i) with
    | none =>
      (build_response env 400 (strCodes "Bad Request")
        (.str (strCodes "Request parsing error: " ++ env.errText)) [], fs)
    | some hs =>
      let header_lines := splitSep [13, 10] hs
      let parts := splitSep [32] ((header_lines.headD []).drop 1)
      if parts.length + 1 < 3 then
        (build_response env 400 (strCodes "Bad Request")
          (.str (strCodes "Invalid HTTP request line")) [], fs)
      else
        route env fs M (parts.getD 0 []) (parseHeaders (header_lines.drop 1))
          ((32 :: tail).drop (i + 4))

/-!
 ## Model of the two socket read loops (the message framer)

`server_thread_pool_http.py:69-89` (`process_client_request`) and
`server_process_pool_http.py:68-88` (`handle_client_connection`) run the
same accumulate loop; only the chunk size, the buffer cap and the socket
timeout differ.  A run of the socket is a script of read events: `recv`
returning a chunk of bytes (the empty chunk is a closed peer), or a
`socket.timeout` being raised.
-/

/-- One outcome of `client_socket.recv(...)`: a chunk of bytes (empty
means the peer closed), or a raised `socket.timeout`. -/
inductive RecvEvent where
  | chunk (d : List Nat)
  | timeout
deriving DecidableEq

/-- The framing loop shared by both engines: stop on empty read, on the
header terminator appearing in the accumulated buffer, on the buffer
exceeding `cap` bytes, or on a read timeout; the accumulated buffer is
returned in every case.  If the script runs out the buffer so far is
returned (the real loop would block on the next `recv`). -/
def recvLoop (cap : Nat) : List RecvEvent → List Nat → List Nat
  | [], buf => buf
  | .timeout :: _, buf => buf
  | .chunk d :: rest, buf =>
    if d = [] then buf
    else
      let bufExt := buf ++ d
      if listContains [13, 10, 13, 10] bufExt then bufExt
      else if cap < bufExt.length then bufExt
      else recvLoop cap rest bufExt

/-- The read loop of `process_client_request`
(`server_thread_pool_http.py:69-89`): 15 MiB cap (the chunk size 8192
and the 25s timeout live in the events of the script). -/
def process_client_request_recv (events : List RecvEvent) (buf : List Nat) : List Nat :=
  recvLoop (15 * 1024 * 1024) events buf

/-- The read loop of `handle_client_connection`
(`server_process_pool_http.py:68-88`): 25 MiB cap (chunk size 16384,
30s timeout). -/
def handle_client_connection_recv (events : List RecvEvent) (buf : List Nat) : List Nat :=
  recvLoop (25 * 1024 * 1024) events buf

/-!
 ## Model of the process-pool queue protocol
(`server_process_pool_http.py`)
-/

/-- A value travelling on the `mp.Queue`: the literal `None`, or a
2-tuple whose components are a socket handle or `None` and an address
or `None`.  The Acceptor enqueues `(client_socket, client_address)`;
`terminate_server` enqueues `(None, None)`. -/
inductive QueueItem where
  | none
  | pair (sock : Option Nat) (addr : Option Nat)
deriving DecidableEq

/-- The value `terminate_server` pushes for each worker
(`server_process_pool_http.py:226-230`): `(None, None)`. -/
def shutdownSentinel : QueueItem := .pair Option.none Option.none

/-- The items `terminate_server` pushes on shutdown: one per worker
(assuming each 2s `put` succeeds). -/
def terminate_server_puts (workerCount : Nat) : List QueueItem :=
  List.replicate workerCount shutdownSentinel

/-- What a worker does after dequeuing one item. -/
inductive WorkerStep where
  | stop
  | continuePolling
deriving DecidableEq

/-- The reaction of `worker_process_function` to a dequeued item
(`server_process_pool_http.py:40-55`): `break` only when the item `is
None`; any tuple — including `(None, None)` — is unpacked and handled,
errors from handling a `None` socket are swallowed by
`handle_client_connection`/the bare `except`, and the loop continues. -/
def worker_process_function_step : QueueItem → WorkerStep
  | .none => .stop
  | .pair _ _ => .continuePolling

/-- `mp.Queue(maxsize=150)` (`server_process_pool_http.py:157`). -/
def queueMaxsize : Nat := 150

/-- Observable outcome of one Acceptor iteration after `accept`. -/
structure AcceptOutcome where
  enqueued : Bool
  queueAfter : List QueueItem
  connClosedNow : Bool
  bytesWrittenByAcceptor : List Nat
  keepsAccepting : Bool
deriving DecidableEq

/-- One iteration of the accept loop of `start_server`
(`server_process_pool_http.py:184-195`) after a successful `accept`,
given the current queue content: `put` with a bounded queue succeeds iff
the queue holds fewer than `queueMaxsize` items (the 2s grace period is
modelled as the queue staying full); on `queue.Full` the bare `except`
closes the socket, and in both cases the `while` loop continues.  The
acceptor never writes to the connection (there is no `send` in the
loop). -/
def start_server_acceptStep (q : List QueueItem) (sock addr : Nat) : AcceptOutcome :=
  if q.length < queueMaxsize then
    { enqueued := true
      queueAfter := q ++ [QueueItem.pair (some sock) (some addr)]
      connClosedNow := false
      bytesWrittenByAcceptor := []
      keepsAccepting := true }
  else
    { enqueued := false
      queueAfter := q
      connClosedNow := true
      bytesWrittenByAcceptor := []
      keepsAccepting := true }

/-- A concrete environment used by witnesses and counterexamples:
timestamp 7, date string `"D"`, no file-system failure, exception text
`"E"`. -/
def env0 : Env :=
  { now := 7, dateStr := strCodes "D", ioError := false, errText := strCodes "E" }

/-- Like `env0` but with file-system calls raising. -/
def env1 : Env :=
  { now := 7, dateStr := strCodes "D", ioError := true, errText := strCodes "E" }

/-!
 ## Helper lemmas
-/

theorem listStartsWith_cons_false (a b : Nat) (p l : List Nat) (h : a ≠ b) :
    listStartsWith (a :: p) (b :: l) = false := by
  simp only [listStartsWith, List.length_cons, List.take_succ_cons,
    decide_eq_false_iff_not, ne_eq, List.cons.injEq, not_and]
  intro hba
  exact absurd hba.symm h

theorem listContains_term_replicate (n c : Nat) (h : c ≠ 13) :
    listContains [13, 10, 13, 10] (List.replicate n c) = false := by
  induction n with
  | zero => rfl
  | succ n ih =>
    rw [List.replicate_succ]
    simp only [listContains, ih, Bool.or_false]
    exact listStartsWith_cons_false 13 c [10, 13, 10] (List.replicate n c) (fun hc => h hc.symm)

theorem find?_filter_key_none (fs : List (List Nat × List Nat)) (k : List Nat) :
    (fs.filter (fun e => !(e.1 == k))).find? (fun e => e.1 == k) = none := by
  induction fs with
  | nil => rfl
  | cons e fs ih =>
    rw [List.filter_cons]
    cases h : (e.1 == k) with
    | true => simpa [h] using ih
    | false => simpa [h, List.find?_cons_of_neg] using ih

theorem fsRead_fsWrite_self (fs : FileStore) (k v : List Nat) :
    fsRead (fsWrite fs k v) k = some v := by
  unfold fsRead fsWrite
  induction fs with
  | nil => simp [List.find?]
  | cons e fs ih =>
    rw [List.filter_cons]
    cases h : (e.1 == k) with
    | true => simpa [h] using ih
    | false =>
      simp only [h, Bool.not_false, if_true, List.cons_append]
      rw [List.find?_cons_of_neg _ (by simp [h])]
      exact ih

theorem fsRead_fsRemove_self (fs : FileStore) (k : List Nat) :
    fsRead (fsRemove fs k) k = none := by
  unfold fsRead fsRemove
  rw [find?_filter_key_none]
  rfl

theorem takeWhile_all (p : Nat → Bool) :
    ∀ l : List Nat, (∀ c ∈ l, p c = true) → List.takeWhile p l = l := by
  intro l
  induction l with
  | nil => intro _; rfl
  | cons a l ih =>
    intro h
    rw [List.takeWhile_cons, h a (List.mem_cons_self a l), if_pos rfl,
      ih (fun c hc => h c (List.mem_cons_of_mem a hc))]

theorem mem_takeWhile_sat (p : Nat → Bool) :
    ∀ l c, c ∈ List.takeWhile p l → p c = true := by
  intro l
  induction l with
  | nil => intro c hc; simp [List.takeWhile_nil] at hc
  | cons a l ih =>
    intro c hc
    rw [List.takeWhile_cons] at hc
    cases h : p a with
    | true =>
      rw [h, if_pos rfl] at hc
      rcases List.mem_cons.mp hc with rfl | hmem
      · exact h
      · exact ih c hmem
    | false =>
      rw [h] at hc
      simp at hc

theorem not_slash_mem_basename (x : List Nat) : 47 ∉ basename x := by
  intro hmem
  have := mem_takeWhile_sat (fun c => !(c == 47)) x.reverse 47 (List.mem_reverse.mp hmem)
  simp at this

theorem basename_of_no_slash (x : List Nat) (h : 47 ∉ x) : basename x = x := by
  unfold basename
  rw [takeWhile_all _ x.reverse ?_, List.reverse_reverse]
  intro c hc
  have : c ≠ 47 := fun hh => h (hh ▸ List.mem_reverse.mp hc)
  simp [this]

theorem basename_idem (x : List Nat) : basename (basename x) = basename x :=
  basename_of_no_slash _ (not_slash_mem_basename x)

theorem natToStrAux_digits :
    ∀ fuel n acc, (∀ c ∈ acc, 48 ≤ c ∧ c ≤ 57) →
      ∀ c ∈ natToStrAux fuel n acc, 48 ≤ c ∧ c ≤ 57 := by
  intro fuel
  induction fuel with
  | zero => intro n acc hacc c hc; exact hacc c hc
  | succ fuel ih =>
    intro n acc hacc c hc
    rw [natToStrAux] at hc
    by_cases h : n = 0
    · rw [if_pos h] at hc; exact hacc c hc
    · rw [if_neg h] at hc
      refine ih (n / 10) _ ?_ c hc
      intro x hx
      rcases List.mem_cons.mp hx with rfl | hmem
      · have : n % 10 < 10 := Nat.mod_lt _ (by omega)
        omega
      · exact hacc x hmem

theorem natToStr_digits (n : Nat) : ∀ c ∈ natToStr n, 48 ≤ c ∧ c ≤ 57 := by
  unfold natToStr
  by_cases h : n = 0
  · rw [if_pos h]; intro c hc; simp at hc; omega
  · rw [if_neg h]; exact natToStrAux_digits n n [] (by simp)

theorem safeFilename_no_slash (env : Env) (f : List Nat) : 47 ∉ safeFilename env f := by
  unfold safeFilename
  split
  · intro hmem
    rcases List.mem_append.mp hmem with hl | hr
    · simp [strCodes] at hl
    · have := natToStr_digits env.now 47 hr
      omega
  · exact not_slash_mem_basename f

theorem safeFilename_eq_self (env : Env) (x : List Nat) (h47 : 47 ∉ x) (hne : x ≠ [])
    (hdot : x.headD 0 ≠ 46) : safeFilename env x = x := by
  unfold safeFilename
  rw [basename_of_no_slash x h47, if_neg (by push_neg; exact ⟨hne, hdot⟩)]

theorem safeFilename_generated (env : Env) (f : List Nat)
    (h : basename f = [] ∨ (basename f).headD 0 = 46) :
    safeFilename env f = strCodes "file_" ++ natToStr env.now := by
  unfold safeFilename
  rw [if_pos h]

theorem uploadFinish_eq (env : Env) (fs : FileStore) (filename d : List Nat)
    (hne : filename ≠ []) (henv : env.ioError = false) :
    uploadFinish env fs filename d =
      (build_response env 201 (strCodes "Created")
        (.str (strCodes "File " ++ safeFilename env filename ++
          strCodes " uploaded successfully (" ++ natToStr d.length ++ strCodes " bytes)")) [],
       fsWrite fs (safeFilename env filename) d) := by
  unfold uploadFinish
  rw [if_neg hne, henv]
  rfl

theorem handle_upload_raw_eq (env : Env) (fs : FileStore)
    (headers_dict : List (List Nat × List Nat)) (request_body f : List Nat)
    (hct : listContains (strCodes "multipart/form-data")
      ((hdrGet headers_dict (strCodes "content-type")).getD []) = false)
    (hx : hdrGet headers_dict (strCodes "x-upload-filename") = some f) (hne : f ≠ []) :
    handle_upload env headers_dict request_body fs = uploadFinish env fs f request_body := by
  simp only [handle_upload]
  rw [hct, hx]
  simp [hne]

theorem parseFormLoop_basename :
    ∀ parts fn d, parseFormLoop parts = some (fn, d) → basename fn = fn := by
  intro parts
  induction parts with
  | nil => intro fn d h; simp [parseFormLoop] at h
  | cons part rest ih =>
    intro fn d h
    rw [parseFormLoop] at h
    by_cases hcd : (listContains (strCodes "Content-Disposition") part &&
        listContains (strCodes "filename=") part) = true
    · rw [if_pos hcd] at h
      cases hre : regexFilename part with
      | none => simp only [hre] at h; exact ih fn d h
      | some fnBytes =>
        cases hdec : utf8Decode fnBytes with
        | none => simp only [hre, hdec] at h; exact absurd h (by simp)
        | some fname =>
          cases hpos : findSub [13, 10, 13, 10] part with
          | none => simp only [hre, hdec, hpos] at h; exact ih fn d h
          | some pos =>
            simp only [hre, hdec, hpos, Option.some.injEq, Prod.mk.injEq] at h
            rw [← h.1]
            exact basename_idem fname
    · rw [if_neg hcd] at h
      exact ih fn d h

theorem handle_upload_multipart_eq (env : Env) (fs : FileStore)
    (headers_dict : List (List Nat × List Nat)) (request_body ct bnd : List Nat)
    (hct : hdrGet headers_dict (strCodes "content-type") = some ct)
    (hmp : listContains (strCodes "multipart/form-data") ct = true)
    (hbnd : regexBoundary ct = some bnd) :
    handle_upload env headers_dict request_body fs =
      (match parse_form_data request_body (utf8Encode bnd) with
        | none =>
          (build_response env 400 (strCodes "Bad Request")
            (.str (strCodes "No valid file found in request")) [], fs)
        | some (filename, file_data) =>
          if filename = [] then
            (build_response env 400 (strCodes "Bad Request")
              (.str (strCodes "No valid file found in request")) [], fs)
          else uploadFinish env fs filename file_data) := by
  simp only [handle_upload]
  rw [hct]
  simp only [Option.getD_some]
  rw [hmp, hbnd]
  simp

theorem utf8Encode_append (a b : List Nat) :
    utf8Encode (a ++ b) = utf8Encode a ++ utf8Encode b := by
  induction a with
  | nil => rfl
  | cons c a ih => simp [utf8Encode, ih]

theorem take_length_append (p rest : List Nat) : (p ++ rest).take p.length = p := by
  induction p with
  | nil => rfl
  | cons c p ih => simp [ih]

theorem listStartsWith_self_append (p rest : List Nat) :
    listStartsWith p (p ++ rest) = true := by
  simp [listStartsWith, take_length_append]

theorem extraHeaders_flat_shape (l : List (List Nat × List Nat)) :
    (l.map (fun kv => kv.1 ++ strCodes ": " ++ kv.2 ++ crlf)).foldr
        (fun a b => a ++ b) [] = [] ∨
    ∃ z, (l.map (fun kv => kv.1 ++ strCodes ": " ++ kv.2 ++ crlf)).foldr
        (fun a b => a ++ b) [] = z ++ crlf := by
  induction l with
  | nil => left; rfl
  | cons kv l ih =>
    right
    rw [List.map_cons, List.foldr_cons]
    rcases ih with h | ⟨z, h⟩
    · rw [h]
      exact ⟨kv.1 ++ strCodes ": " ++ kv.2, by simp [List.append_assoc]⟩
    · rw [h]
      exact ⟨kv.1 ++ strCodes ": " ++ kv.2 ++ crlf ++ z, by simp [List.append_assoc]⟩

theorem headerString_split (r : BuiltResponse) :
    ∃ X, headerString r = X ++ [13, 10, 13, 10] := by
  unfold headerString
  rcases extraHeaders_flat_shape r.extra_headers with h | ⟨z, h⟩
  · rw [h]
    refine ⟨strCodes "HTTP/1.1 " ++ natToStr r.status_code ++ [32] ++ r.status_text ++ crlf ++
      strCodes "Date: " ++ r.date ++ crlf ++ strCodes "Connection: close" ++ crlf ++
      strCodes "Server: AdvancedHttpServer/1.5" ++ crlf ++ strCodes "Content-Length: " ++
      natToStr r.content_length, ?_⟩
    simp [crlf, List.append_assoc]
  · rw [h]
    refine ⟨strCodes "HTTP/1.1 " ++ natToStr r.status_code ++ [32] ++ r.status_text ++ crlf ++
      strCodes "Date: " ++ r.date ++ crlf ++ strCodes "Connection: close" ++ crlf ++
      strCodes "Server: AdvancedHttpServer/1.5" ++ crlf ++ strCodes "Content-Length: " ++
      natToStr r.content_length ++ crlf ++ z, ?_⟩
    simp [crlf, List.append_assoc]

theorem responseWire_shape (r : BuiltResponse) :
    ∃ pre, responseWire r = pre ++ [13, 10, 13, 10] ++ r.body := by
  obtain ⟨X, hX⟩ := headerString_split r
  refine ⟨utf8Encode X, ?_⟩
  rw [responseWire, hX, utf8Encode_append]
  simp [utf8Encode, utf8EncodeChar]

theorem responseWire_status_line (r : BuiltResponse) :
    listStartsWith (strCodes "HTTP/1.1 ") (responseWire r) = true := by
  obtain ⟨T, hT⟩ : ∃ T, headerString r = strCodes "HTTP/1.1 " ++ T := by
    rw [headerString]
    simp only [List.append_assoc]
    exact ⟨_, rfl⟩
  rw [responseWire, hT, utf8Encode_append, List.append_assoc,
    (by decide : utf8Encode (strCodes "HTTP/1.1 ") = strCodes "HTTP/1.1 ")]
  exact listStartsWith_self_append _ _

theorem build_response_status (env : Env) (c : Nat) (t : List Nat) (content : PyContent)
    (e : List (List Nat × List Nat)) : (build_response env c t content e).status_code = c :=
  rfl

theorem handle_upload_status (env : Env) (hdrs : List (List Nat × List Nat))
    (body : List Nat) (fs : FileStore) :
    (handle_upload env hdrs body fs).1.status_code = 400 ∨
    (handle_upload env hdrs body fs).1.status_code = 201 ∨
    (handle_upload env hdrs body fs).1.status_code = 500 := by
  simp only [handle_upload, uploadFinish]
  repeat' split
  all_goals simp [build_response]

theorem handle_get_status (env : Env) (fs : FileStore) (path : List Nat)
    (hdrs : List (List Nat × List Nat)) :
    (handle_get env fs path hdrs).status_code = 200 ∨
    (handle_get env fs path hdrs).status_code = 302 ∨
    (handle_get env fs path hdrs).status_code = 404 ∨
    (handle_get env fs path hdrs).status_code = 500 := by
  simp only [handle_get]
  repeat' split
  all_goals simp [build_response]

theorem handle_delete_status (env : Env) (fs : FileStore) (path : List Nat)
    (hdrs : List (List Nat × List Nat)) :
    (handle_delete env fs path hdrs).1.status_code = 200 ∨
    (handle_delete env fs path hdrs).1.status_code = 404 ∨
    (handle_delete env fs path hdrs).1.status_code = 500 := by
  simp only [handle_delete]
  repeat' split
  all_goals simp [build_response]

theorem route_status (env : Env) (fs : FileStore) (m p : List Nat)
    (hdrs : List (List Nat × List Nat)) (body : List Nat) :
    (route env fs m p hdrs body).1.status_code ∈
      ([200, 201, 302, 400, 404, 405, 500] : List Nat) := by
  simp only [route]
  split
  · rcases handle_upload_status env hdrs body fs with h | h | h <;> simp [h]
  · split
    · rcases handle_get_status env fs p hdrs with h | h | h | h <;> simp [h]
    · split
      · rcases handle_delete_status env fs p hdrs with h | h | h <;> simp [h]
      · simp [build_response]

theorem handle_request_status (env : Env) (fs : FileStore) (data : List Nat) :
    (handle_request env fs data).1.status_code ∈
      ([200, 201, 302, 400, 404, 405, 500] : List Nat) := by
  simp only [handle_request]
  split
  · simp [build_response]
  · split
    · simp [build_response]
    · split
      · simp [build_response]
      · exact route_status env fs _ _ _ _

/-!
 ## C1 — Content-Length versus body byte length
-/

/-- C1 (amended): `build_response` writes `len(content)` into the
`Content-Length` header.  For a `bytes` body that number equals the byte
length of the body on the wire; for a `str` body it equals the wire byte
length exactly when the UTF-8 encoding of the string has as many bytes
as the string has code points (in particular for every ASCII string). -/
theorem build_response_content_length_spec (env : Env) (code : Nat) (text : List Nat)
    (content : PyContent) (extra : List (List Nat × List Nat)) :
    (build_response env code text content extra).content_length = pyLen content ∧
    (∀ b, content = PyContent.bytes b →
      (build_response env code text content extra).content_length =
        (build_response env code text content extra).body.length) ∧
    (∀ s, content = PyContent.str s →
      ((build_response env code text content extra).content_length =
          (build_response env code text content extra).body.length ↔
        (utf8Encode s).length = s.length)) := by
  refine ⟨rfl, ?_, ?_⟩
  · rintro b rfl
    simp [build_response, pyLen, contentBytes]
  · rintro s rfl
    simp only [build_response, pyLen, contentBytes]
    exact eq_comm

/-- Witness for C1 at a concrete byte body. -/
theorem build_response_content_length_spec_witness :
    (build_response env0 200 (strCodes "OK") (.bytes [1, 2]) []).content_length =
      (build_response env0 200 (strCodes "OK") (.bytes [1, 2]) []).body.length :=
  (build_response_content_length_spec env0 200 (strCodes "OK") (.bytes [1, 2]) []).2.1
    [1, 2] rfl

/-- C1 counterexample: for the one-character string body `"é"`, the
`Content-Length` header says 1 while the body on the wire is the 2-byte
UTF-8 encoding, so the claimed invariant fails. -/
theorem build_response_content_length_counterexample :
    (build_response env0 200 (strCodes "OK") (.str [233]) []).content_length = 1 ∧
    (build_response env0 200 (strCodes "OK") (.str [233]) []).body.length = 2 ∧
    ¬((build_response env0 200 (strCodes "OK") (.str [233]) []).content_length =
        (build_response env0 200 (strCodes "OK") (.str [233]) []).body.length) := by
  decide

/-!
 ## C2 — the shutdown sentinel is never recognized by workers
-/

/-- C2 (code bug): `terminate_server` enqueues the tuple `(None, None)`
once per worker, but `worker_process_function` exits only on the bare
`None` sentinel; on the tuple it keeps polling, so no worker stops in
response to what shutdown pushes. -/
theorem terminate_server_sentinel_mismatch (n : Nat) :
    terminate_server_puts n = List.replicate n (QueueItem.pair Option.none Option.none) ∧
    worker_process_function_step shutdownSentinel = WorkerStep.continuePolling ∧
    worker_process_function_step QueueItem.none = WorkerStep.stop ∧
    shutdownSentinel ≠ QueueItem.none :=
  ⟨rfl, rfl, rfl, by decide⟩

/-!
 ## C5 — framing stop conditions
-/

/-- C5: both read loops return the accumulated buffer as soon as
`\r\n\r\n` appears after a chunk, ignoring every later read event (in
particular they never read on until a declared `Content-Length` is
satisfied); they stop on a zero-byte read and on a timeout with the
bytes accumulated so far; and when the terminator is absent they stop
once the buffer exceeds 15 MiB (thread pool) / 25 MiB (process pool). -/
theorem framer_stop_conditions (d buf : List Nat) (rest : List RecvEvent) :
    (d ≠ [] → listContains [13, 10, 13, 10] (buf ++ d) = true →
      process_client_request_recv (RecvEvent.chunk d :: rest) buf = buf ++ d ∧
      handle_client_connection_recv (RecvEvent.chunk d :: rest) buf = buf ++ d) ∧
    (process_client_request_recv (RecvEvent.timeout :: rest) buf = buf ∧
      handle_client_connection_recv (RecvEvent.timeout :: rest) buf = buf) ∧
    (process_client_request_recv (RecvEvent.chunk [] :: rest) buf = buf ∧
      handle_client_connection_recv (RecvEvent.chunk [] :: rest) buf = buf) ∧
    (d ≠ [] → listContains [13, 10, 13, 10] (buf ++ d) = false →
      15 * 1024 * 1024 < (buf ++ d).length →
      process_client_request_recv (RecvEvent.chunk d :: rest) buf = buf ++ d) ∧
    (d ≠ [] → listContains [13, 10, 13, 10] (buf ++ d) = false →
      25 * 1024 * 1024 < (buf ++ d).length →
      handle_client_connection_recv (RecvEvent.chunk d :: rest) buf = buf ++ d) := by
  refine ⟨?_, ⟨rfl, rfl⟩, ?_, ?_, ?_⟩
  · intro hne hterm
    constructor <;>
      simp [process_client_request_recv, handle_client_connection_recv, recvLoop, hne, hterm]
  · constructor <;> simp [process_client_request_recv, handle_client_connection_recv, recvLoop]
  · intro hne hterm hlen
    simp only [List.length_append] at hlen
    simp [process_client_request_recv, recvLoop, hne, hterm]
    omega
  · intro hne hterm hlen
    simp only [List.length_append] at hlen
    simp [handle_client_connection_recv, recvLoop, hne, hterm]
    omega

/-- Witness for C5: concrete runs through the terminator case (later
events ignored), and through the 15 MiB overflow case. -/
theorem framer_stop_conditions_witness :
    process_client_request_recv
        (RecvEvent.chunk [13, 10, 13, 10] :: [RecvEvent.chunk [1, 2, 3]]) [] =
      [13, 10, 13, 10] ∧
    process_client_request_recv [RecvEvent.timeout] [65] = [65] ∧
    process_client_request_recv [RecvEvent.chunk (List.replicate 15728641 48)] [] =
      List.replicate 15728641 48 := by
  refine ⟨?_, ?_, ?_⟩
  · exact ((framer_stop_conditions [13, 10, 13, 10] [] [RecvEvent.chunk [1, 2, 3]]).1
      (by decide) (by decide)).1
  · exact (framer_stop_conditions [] [65] []).2.1.1
  · have h := (framer_stop_conditions (List.replicate 15728641 48) [] []).2.2.2.1
    rw [List.nil_append] at h
    refine h ?_ ?_ ?_
    · intro hc
      have hlen := congrArg List.length hc
      rw [List.length_replicate, List.length_nil] at hlen
      omega
    · exact listContains_term_replicate 15728641 48 (by decide)
    · rw [List.length_replicate]
      omega

/-!
 ## C6 — process-pool backpressure on a full queue
-/

/-- C6: with the bounded queue (capacity 150) full, the Acceptor closes
the newly accepted connection without enqueuing it and without writing
any bytes to it, and keeps accepting; below capacity the connection is
enqueued. -/
theorem acceptor_backpressure_spec (q : List QueueItem) (sock addr : Nat) :
    (queueMaxsize ≤ q.length →
      start_server_acceptStep q sock addr =
        { enqueued := false, queueAfter := q, connClosedNow := true,
          bytesWrittenByAcceptor := [], keepsAccepting := true }) ∧
    (q.length < queueMaxsize →
      start_server_acceptStep q sock addr =
        { enqueued := true, queueAfter := q ++ [QueueItem.pair (some sock) (some addr)],
          connClosedNow := false, bytesWrittenByAcceptor := [], keepsAccepting := true }) ∧
    queueMaxsize = 150 := by
  refine ⟨?_, ?_, rfl⟩
  · intro h
    simp [start_server_acceptStep, Nat.not_lt.mpr h]
  · intro h
    simp [start_server_acceptStep, h]

/-- Witness for C6: a queue holding exactly 150 items drops the
connection; the empty queue accepts it. -/
theorem acceptor_backpressure_spec_witness :
    start_server_acceptStep (List.replicate 150 QueueItem.none) 3 4 =
      { enqueued := false, queueAfter := List.replicate 150 QueueItem.none,
        connClosedNow := true, bytesWrittenByAcceptor := [], keepsAccepting := true } ∧
    start_server_acceptStep [] 3 4 =
      { enqueued := true, queueAfter := [QueueItem.pair (some 3) (some 4)],
        connClosedNow := false, bytesWrittenByAcceptor := [], keepsAccepting := true } := by
  constructor
  · exact (acceptor_backpressure_spec (List.replicate 150 QueueItem.none) 3 4).1 (by simp [queueMaxsize])
  · exact (acceptor_backpressure_spec [] 3 4).2.1 (by simp [queueMaxsize])

/-!
 ## C3 — upload filename sanitization
-/

/-- C3 (amended): whenever an upload stores a file, the stored name is
the final path segment of the supplied filename, replaced by
`file_<unix-timestamp>` when that segment is empty or dot-leading; the
stored name never contains a path separator, and `../../etc/passwd`
sanitizes to `passwd`.  In the raw-body path this holds for every
non-empty supplied filename; in the multipart path the extractor has
already reduced the name to its final segment, a dot-leading segment
still gets the generated name, but an empty segment is instead rejected
with 400 and nothing is stored. -/
theorem upload_filename_sanitization (env : Env) (fs : FileStore)
    (headers_dict : List (List Nat × List Nat)) (request_body f : List Nat) :
    (47 ∉ safeFilename env f) ∧
    (safeFilename env (strCodes "../../etc/passwd") = strCodes "passwd") ∧
    (basename f = [] ∨ (basename f).headD 0 = 46 →
      safeFilename env f = strCodes "file_" ++ natToStr env.now) ∧
    (listContains (strCodes "multipart/form-data")
        ((hdrGet headers_dict (strCodes "content-type")).getD []) = false →
      hdrGet headers_dict (strCodes "x-upload-filename") = some f → f ≠ [] →
      env.ioError = false →
      (handle_upload env headers_dict request_body fs).2 =
        fsWrite fs (safeFilename env f) request_body) ∧
    (∀ ct bnd fn d,
      hdrGet headers_dict (strCodes "content-type") = some ct →
      listContains (strCodes "multipart/form-data") ct = true →
      regexBoundary ct = some bnd →
      parse_form_data request_body (utf8Encode bnd) = some (fn, d) →
      fn ≠ [] → env.ioError = false →
      (handle_upload env headers_dict request_body fs).2 =
        fsWrite fs (safeFilename env fn) d ∧ basename fn = fn) ∧
    (∀ ct bnd d,
      hdrGet headers_dict (strCodes "content-type") = some ct →
      listContains (strCodes "multipart/form-data") ct = true →
      regexBoundary ct = some bnd →
      parse_form_data request_body (utf8Encode bnd) = some ([], d) →
      handle_upload env headers_dict request_body fs =
        (build_response env 400 (strCodes "Bad Request")
          (.str (strCodes "No valid file found in request")) [], fs)) := by
  refine ⟨safeFilename_no_slash env f, rfl, safeFilename_generated env f, ?_, ?_, ?_⟩
  · intro hct hx hne henv
    rw [handle_upload_raw_eq env fs headers_dict request_body f hct hx hne,
      uploadFinish_eq env fs f request_body hne henv]
  · intro ct bnd fn d hct hmp hbnd hparse hne henv
    refine ⟨?_, parseFormLoop_basename _ fn d hparse⟩
    rw [handle_upload_multipart_eq env fs headers_dict request_body ct bnd hct hmp hbnd]
    simp only [hparse]
    rw [if_neg hne, uploadFinish_eq env fs fn d hne henv]
  · intro ct bnd d hct hmp hbnd hparse
    rw [handle_upload_multipart_eq env fs headers_dict request_body ct bnd hct hmp hbnd]
    simp only [hparse]
    simp

/-- Witness for C3: a concrete raw upload of name `a.txt` and a concrete
multipart upload of name `nested/inner.txt` (stored as `inner.txt`). -/
theorem upload_filename_sanitization_witness :
    (handle_upload env0 [(strCodes "x-upload-filename", strCodes "a.txt")] [1, 2, 3] []).2 =
      fsWrite [] (safeFilename env0 (strCodes "a.txt")) [1, 2, 3] ∧
    (handle_upload env0 [(strCodes "content-type", strCodes "multipart/form-data; boundary=B")]
        (strCodes "--B\r\nContent-Disposition: form-data; name=\"f\"; filename=\"nested/inner.txt\"\r\n\r\nHI\r\n--B--")
        []).2 =
      fsWrite [] (safeFilename env0 (strCodes "inner.txt")) (strCodes "HI") := by
  constructor
  · exact (upload_filename_sanitization env0 []
      [(strCodes "x-upload-filename", strCodes "a.txt")] [1, 2, 3] (strCodes "a.txt")).2.2.2.1
      (by decide) (by decide) (by decide) rfl
  · exact ((upload_filename_sanitization env0 []
      [(strCodes "content-type", strCodes "multipart/form-data; boundary=B")]
      (strCodes "--B\r\nContent-Disposition: form-data; name=\"f\"; filename=\"nested/inner.txt\"\r\n\r\nHI\r\n--B--")
      []).2.2.2.2.1 (strCodes "multipart/form-data; boundary=B") (strCodes "B")
      (strCodes "inner.txt") (strCodes "HI") (by decide) (by decide) (by decide) (by decide)
      (by decide) rfl).1

/-- C3 counterexample: a multipart upload whose supplied filename is
`a/` (empty final segment) is answered 400 with nothing stored, whereas
the claim says the empty segment is replaced by the generated
`file_<unix-timestamp>` name (which would require a stored file). -/
theorem upload_empty_segment_counterexample :
    handle_upload env0 [(strCodes "content-type", strCodes "multipart/form-data; boundary=B")]
        (strCodes "--B\r\nContent-Disposition: form-data; name=\"f\"; filename=\"a/\"\r\n\r\nHELLO\r\n--B--")
        [] =
      (build_response env0 400 (strCodes "Bad Request")
        (.str (strCodes "No valid file found in request")) [], []) := by
  decide

/-!
 ## C4 — upload / GET round trip
-/

/-- C4 (amended): uploading payload `P` under a raw-path name `X` that
is non-empty, separator-free, not dot-leading, and not one of the three
reserved GET routes (`redirect`, `status`, `directory`), makes a
subsequent `GET /X` answer 200 with body byte-identical to `P` and
`Content-Length` equal to `len(P)`. -/
theorem upload_get_roundtrip (env : Env) (fs : FileStore) (P X : List Nat)
    (hdrs : List (List Nat × List Nat))
    (henv : env.ioError = false)
    (hx : hdrGet hdrs (strCodes "x-upload-filename") = some X)
    (hct : listContains (strCodes "multipart/form-data")
      ((hdrGet hdrs (strCodes "content-type")).getD []) = false)
    (hne : X ≠ []) (h47 : 47 ∉ X) (hdot : X.headD 0 ≠ 46)
    (hr1 : X ≠ strCodes "redirect") (hr2 : X ≠ strCodes "status")
    (hr3 : X ≠ strCodes "directory") :
    (handle_get env (handle_upload env hdrs P fs).2 ([47] ++ X) hdrs).status_code = 200 ∧
    (handle_get env (handle_upload env hdrs P fs).2 ([47] ++ X) hdrs).body = P ∧
    (handle_get env (handle_upload env hdrs P fs).2 ([47] ++ X) hdrs).content_length =
      P.length := by
  have hstore : (handle_upload env hdrs P fs).2 = fsWrite fs X P := by
    rw [handle_upload_raw_eq env fs hdrs P X hct hx hne,
      uploadFinish_eq env fs X P hne henv, safeFilename_eq_self env X h47 hne hdot]
  have hget : handle_get env (handle_upload env hdrs P fs).2 ([47] ++ X) hdrs =
      build_response env 200 (strCodes "OK") (.bytes P)
        [(strCodes "Content-Type", mimeFor X)] := by
    rw [hstore]
    simp only [handle_get]
    rw [if_neg (by simpa [strCodes] using hne),
      if_neg (by simpa [strCodes, List.cons_eq_cons] using hr1),
      if_neg (by simpa [strCodes, List.cons_eq_cons] using hr2),
      if_neg (by simpa [strCodes, List.cons_eq_cons] using hr3)]
    simp only [List.cons_append, List.nil_append, List.drop_succ_cons, List.drop_zero]
    rw [fsRead_fsWrite_self]
    simp only [if_neg hne]
    rw [henv]
    rfl
  rw [hget]
  exact ⟨rfl, rfl, rfl⟩

/-- Witness for C4: payload `[1,2,3]` under name `a.txt`. -/
theorem upload_get_roundtrip_witness :
    (handle_get env0
        (handle_upload env0 [(strCodes "x-upload-filename", strCodes "a.txt")] [1, 2, 3] []).2
        ([47] ++ strCodes "a.txt")
        [(strCodes "x-upload-filename", strCodes "a.txt")]).status_code = 200 ∧
    (handle_get env0
        (handle_upload env0 [(strCodes "x-upload-filename", strCodes "a.txt")] [1, 2, 3] []).2
        ([47] ++ strCodes "a.txt")
        [(strCodes "x-upload-filename", strCodes "a.txt")]).body = [1, 2, 3] :=
  have h := upload_get_roundtrip env0 [] [1, 2, 3] (strCodes "a.txt")
    [(strCodes "x-upload-filename", strCodes "a.txt")] rfl (by decide) (by decide)
    (by decide) (by decide) (by decide) (by decide) (by decide) (by decide)
  ⟨h.1, h.2.1⟩

/-- C4 counterexample: uploading payload `"1"` under the name `status`
succeeds and stores the file, but `GET /status` is served by the fixed
status route, returning 200 with a body different from the payload. -/
theorem roundtrip_reserved_name_counterexample :
    (handle_upload env0 [(strCodes "x-upload-filename", strCodes "status")] [49] []).2 =
      [(strCodes "status", [49])] ∧
    (handle_get env0 [(strCodes "status", [49])] (strCodes "/status") []).status_code = 200 ∧
    (handle_get env0 [(strCodes "status", [49])] (strCodes "/status") []).body ≠ [49] := by
  decide

/-!
 ## C8 — DELETE lifecycle
-/

/-- C8 (amended): for a stored file `F` that is not one of the reserved
GET routes, `DELETE /F` removes it and answers 200; afterwards `GET /F`
answers 404 and a repeated `DELETE /F` answers 404 leaving the store
unchanged; `DELETE` on a missing file or on the bare `/` path answers
404 with the store unchanged.  (For `F` among `redirect`/`status`/
`directory` the delete still removes the file but `GET /F` is served by
the fixed route instead of answering 404.) -/
theorem delete_lifecycle (env : Env) (fs fs2 : FileStore) (F c : List Nat)
    (henv : env.ioError = false) (hne : F ≠ []) (hread : fsRead fs F = some c)
    (hr1 : F ≠ strCodes "redirect") (hr2 : F ≠ strCodes "status")
    (hr3 : F ≠ strCodes "directory") :
    handle_delete env fs ([47] ++ F) [] =
      (build_response env 200 (strCodes "OK")
        (.str (strCodes "File " ++ F ++ strCodes " deleted successfully")) [],
       fsRemove fs F) ∧
    (handle_get env (fsRemove fs F) ([47] ++ F) []).status_code = 404 ∧
    handle_delete env (fsRemove fs F) ([47] ++ F) [] =
      (build_response env 404 (strCodes "Not Found")
        (.str (strCodes "File " ++ F ++ strCodes " not found")) [], fsRemove fs F) ∧
    (fsRead fs2 F = none →
      handle_delete env fs2 ([47] ++ F) [] =
        (build_response env 404 (strCodes "Not Found")
          (.str (strCodes "File " ++ F ++ strCodes " not found")) [], fs2)) ∧
    handle_delete env fs2 (strCodes "/") [] =
      (build_response env 404 (strCodes "Not Found")
        (.str (strCodes "File " ++ ([] : List Nat) ++ strCodes " not found")) [], fs2) := by
  refine ⟨?_, ?_, ?_, ?_, ?_⟩
  · simp only [handle_delete, List.cons_append, List.nil_append, List.drop_succ_cons,
      List.drop_zero]
    rw [hread]
    simp [hne, henv]
  · simp only [handle_get]
    rw [if_neg (by simpa [strCodes] using hne),
      if_neg (by simpa [strCodes, List.cons_eq_cons] using hr1),
      if_neg (by simpa [strCodes, List.cons_eq_cons] using hr2),
      if_neg (by simpa [strCodes, List.cons_eq_cons] using hr3)]
    simp only [List.cons_append, List.nil_append, List.drop_succ_cons, List.drop_zero]
    rw [fsRead_fsRemove_self]
    rfl
  · simp only [handle_delete, List.cons_append, List.nil_append, List.drop_succ_cons,
      List.drop_zero]
    rw [fsRead_fsRemove_self]
    simp
  · intro hnone
    simp only [handle_delete, List.cons_append, List.nil_append, List.drop_succ_cons,
      List.drop_zero]
    rw [hnone]
    simp
  · simp [handle_delete, strCodes]

/-- Witness for C8: the single-file store `f.txt`. -/
theorem delete_lifecycle_witness :
    handle_delete env0 [(strCodes "f.txt", [9])] (strCodes "/f.txt") [] =
      (build_response env0 200 (strCodes "OK")
        (.str (strCodes "File " ++ strCodes "f.txt" ++ strCodes " deleted successfully")) [],
       fsRemove [(strCodes "f.txt", [9])] (strCodes "f.txt")) ∧
    (handle_get env0 (fsRemove [(strCodes "f.txt", [9])] (strCodes "f.txt"))
        (strCodes "/f.txt") []).status_code = 404 :=
  have h := delete_lifecycle env0 [(strCodes "f.txt", [9])] [] (strCodes "f.txt") [9] rfl
    (by decide) (by decide) (by decide) (by decide) (by decide)
  ⟨h.1, h.2.1⟩

/-- C8 counterexample: deleting the stored file `status` answers 200 and
removes it, but the subsequent `GET /status` answers 200 (the fixed
status route), not 404 as the claim states. -/
theorem delete_then_get_reserved_counterexample :
    (handle_delete env0 [(strCodes "status", [53])] (strCodes "/status") []).1.status_code =
      200 ∧
    (handle_delete env0 [(strCodes "status", [53])] (strCodes "/status") []).2 = [] ∧
    (handle_get env0 [] (strCodes "/status") []).status_code = 200 := by
  decide

/-!
 ## C7 — multipart extraction order
-/

theorem parseFormLoop_skip (p : List Nat) (rest : List (List Nat))
    (hs : partSucceeds p = false) (ha : partAborts p = false) :
    parseFormLoop (p :: rest) = parseFormLoop rest := by
  rw [parseFormLoop]
  by_cases hcd : (listContains (strCodes "Content-Disposition") p &&
      listContains (strCodes "filename=") p) = true
  · rw [if_pos hcd]
    rw [Bool.and_eq_true] at hcd
    cases hre : regexFilename p with
    | none => simp [hre]
    | some fb =>
      cases hdec : utf8Decode fb with
      | none =>
        exfalso
        rw [partAborts] at ha
        simp only [hre, hdec, Option.isNone_none, hcd.1, hcd.2] at ha
        simp at ha
      | some fname =>
        cases hpos : findSub [13, 10, 13, 10] p with
        | none => simp [hre, hdec, hpos]
        | some pos =>
          exfalso
          rw [partSucceeds] at hs
          simp only [hre, hdec, hpos, Option.isSome_some, hcd.1, hcd.2] at hs
          simp at hs
  · rw [if_neg hcd]

theorem parseFormLoop_success (p : List Nat) (rest : List (List Nat))
    (hs : partSucceeds p = true) :
    parseFormLoop (p :: rest) = some (partFilename p, partContent p) := by
  rw [partSucceeds] at hs
  cases hre : regexFilename p with
  | none => simp only [hre] at hs; simp at hs
  | some fb =>
    cases hdec : utf8Decode fb with
    | none => simp only [hre, hdec, Option.isSome_none] at hs; simp at hs
    | some fname =>
      cases hpos : findSub [13, 10, 13, 10] p with
      | none => simp only [hre, hdec, hpos, Option.isSome_none] at hs; simp at hs
      | some pos =>
        simp only [hre, hdec, hpos, Option.isSome_some, Bool.and_true,
          Bool.and_eq_true] at hs
        rw [parseFormLoop, if_pos (by simp [hs.1, hs.2])]
        simp only [hre, hdec, hpos, partFilename, partContent, Option.getD_some]

theorem parseFormLoop_all_skipped :
    ∀ parts : List (List Nat),
      (∀ q ∈ parts, partSucceeds q = false ∧ partAborts q = false) →
      parseFormLoop parts = none := by
  intro parts
  induction parts with
  | nil => intro _; rfl
  | cons q parts ih =>
    intro h
    rw [parseFormLoop_skip q parts (h q (List.mem_cons_self q parts)).1
      (h q (List.mem_cons_self q parts)).2]
    exact ih (fun r hr => h r (List.mem_cons_of_mem q hr))

theorem parseFormLoop_first :
    ∀ (pre : List (List Nat)) (p : List Nat) (post : List (List Nat)),
      (∀ q ∈ pre, partSucceeds q = false ∧ partAborts q = false) →
      partSucceeds p = true →
      parseFormLoop (pre ++ p :: post) = some (partFilename p, partContent p) := by
  intro pre
  induction pre with
  | nil => intro p post _ hp; exact parseFormLoop_success p post hp
  | cons q pre ih =>
    intro p post hq hp
    rw [List.cons_append, parseFormLoop_skip q _ (hq q (List.mem_cons_self q pre)).1
      (hq q (List.mem_cons_self q pre)).2]
    exact ih p post (fun r hr => hq r (List.mem_cons_of_mem q hr)) hp

/-- C7 (amended): splitting the body on `--<boundary>`, the extractor
returns the filename (final path segment of the decoded attribute) and
the `\r\n\r\n`-delimited, `\r\n`-stripped content of the first part that
has the `Content-Disposition` and `filename=` substrings, a quoted
filename attribute that decodes, **and** a `\r\n\r\n` separator — parts
matching the attribute but lacking the separator (or lacking a closing
quote) are skipped, and an undecodable attribute aborts the whole scan;
if no part qualifies it returns `(None, None)` and the upload handler
answers 400. -/
theorem parse_form_data_first_match (body bnd : List Nat) :
    (∀ (pre : List (List Nat)) (p : List Nat) (post : List (List Nat)),
      splitSep ([45, 45] ++ bnd) body = pre ++ p :: post →
      (∀ q ∈ pre, partSucceeds q = false ∧ partAborts q = false) →
      partSucceeds p = true →
      parse_form_data body bnd = some (partFilename p, partContent p)) ∧
    ((∀ q ∈ splitSep ([45, 45] ++ bnd) body,
        partSucceeds q = false ∧ partAborts q = false) →
      parse_form_data body bnd = none) ∧
    (∀ (env : Env) (fs : FileStore) (headers_dict : List (List Nat × List Nat))
        (ct bndS : List Nat),
      hdrGet headers_dict (strCodes "content-type") = some ct →
      listContains (strCodes "multipart/form-data") ct = true →
      regexBoundary ct = some bndS →
      utf8Encode bndS = bnd →
      parse_form_data body bnd = none →
      handle_upload env headers_dict body fs =
        (build_response env 400 (strCodes "Bad Request")
          (.str (strCodes "No valid file found in request")) [], fs)) := by
  refine ⟨?_, ?_, ?_⟩
  · intro pre p post hsplit hpre hp
    rw [parse_form_data, hsplit]
    exact parseFormLoop_first pre p post hpre hp
  · intro h
    rw [parse_form_data]
    exact parseFormLoop_all_skipped _ h
  · intro env fs headers_dict ct bndS hct hmp hbnd henc hparse
    rw [handle_upload_multipart_eq env fs headers_dict body ct bndS hct hmp hbnd, henc,
      hparse]

/-- Witness for C7: a concrete one-file multipart body; the empty
leading split chunk is skipped and the file part is extracted. -/
theorem parse_form_data_first_match_witness :
    parse_form_data
        (strCodes "--B\r\nContent-Disposition: form-data; name=\"f\"; filename=\"ok.txt\"\r\n\r\nDATA\r\n--B--")
        (strCodes "B") =
      some
        (partFilename
          (strCodes "\r\nContent-Disposition: form-data; name=\"f\"; filename=\"ok.txt\"\r\n\r\nDATA\r\n"),
         partContent
          (strCodes "\r\nContent-Disposition: form-data; name=\"f\"; filename=\"ok.txt\"\r\n\r\nDATA\r\n")) ∧
    parse_form_data (strCodes "--B\r\njunk\r\n--B--") (strCodes "B") = none := by
  constructor
  · exact (parse_form_data_first_match
      (strCodes "--B\r\nContent-Disposition: form-data; name=\"f\"; filename=\"ok.txt\"\r\n\r\nDATA\r\n--B--")
      (strCodes "B")).1 [[]]
      (strCodes "\r\nContent-Disposition: form-data; name=\"f\"; filename=\"ok.txt\"\r\n\r\nDATA\r\n")
      [strCodes "--"] (by decide) (by decide) (by decide)
  · exact (parse_form_data_first_match (strCodes "--B\r\njunk\r\n--B--")
      (strCodes "B")).2.1 (by decide)

/-- C7 counterexample: in `c7Body` the first part containing both
`Content-Disposition` and a `filename="..."` attribute is `c7PartA`
(attribute `"a"`), but it lacks a `\r\n\r\n` separator, so the extractor
skips it and returns the filename and content of the later part
`c7PartB` — contradicting the claim that the first matching part is
taken and later matching parts are ignored. -/
theorem parse_form_data_skips_first_match_counterexample :
    splitSep (strCodes "--B") c7Body = [[], c7PartA, c7PartB, strCodes "--"] ∧
    listContains (strCodes "Content-Disposition") c7PartA = true ∧
    listContains (strCodes "filename=") c7PartA = true ∧
    regexFilename c7PartA = some (strCodes "a") ∧
    parse_form_data c7Body (strCodes "B") = some (strCodes "b", strCodes "DATA") := by
  decide

/-!
 ## C9 — totality of handle_request
-/

/-- C9: `handle_request` is total on byte inputs: every result is a
complete wire response (an `HTTP/1.1 ` status line, a header block ended
by the blank line, then exactly the body) with a status code from the
fixed repertoire.  Input without the `\r\n\r\n` terminator, or whose
header block does not decode as UTF-8, or whose request line has fewer
than 3 space-separated tokens, is answered 400; a file-system exception
inside a handler (the model of the only exceptions the handlers raise)
is converted into a 500 response, shown for the delete and upload
handlers. -/
theorem handle_request_total (env : Env) (fs : FileStore) (data : List Nat) :
    (∃ pre, responseWire (handle_request env fs data).1 =
        pre ++ [13, 10, 13, 10] ++ (handle_request env fs data).1.body) ∧
    listStartsWith (strCodes "HTTP/1.1 ") (responseWire (handle_request env fs data).1) =
      true ∧
    (handle_request env fs data).1.status_code ∈
      ([200, 201, 302, 400, 404, 405, 500] : List Nat) ∧
    (findSub [13, 10, 13, 10] data = none →
      handle_request env fs data =
        (build_response env 400 (strCodes "Bad Request")
          (.str (strCodes "Malformed HTTP request")) [], fs)) ∧
    (∀ i, findSub [13, 10, 13, 10] data = some i → utf8Decode (data.take i) = none →
      handle_request env fs data =
        (build_response env 400 (strCodes "Bad Request")
          (.str (strCodes "Request parsing error: " ++ env.errText)) [], fs)) ∧
    (∀ i text, findSub [13, 10, 13, 10] data = some i →
      utf8Decode (data.take i) = some text →
      (splitSep [32] ((splitSep [13, 10] text).headD [])).length < 3 →
      handle_request env fs data =
        (build_response env 400 (strCodes "Bad Request")
          (.str (strCodes "Invalid HTTP request line")) [], fs)) ∧
    (env.ioError = true → ∀ F, F ≠ [] → (fsRead fs F).isSome = true →
      (handle_delete env fs ([47] ++ F) []).1.status_code = 500) ∧
    (env.ioError = true → ∀ (hdrs : List (List Nat × List Nat)) (body f : List Nat),
      listContains (strCodes "multipart/form-data")
        ((hdrGet hdrs (strCodes "content-type")).getD []) = false →
      hdrGet hdrs (strCodes "x-upload-filename") = some f → f ≠ [] →
      (handle_upload env hdrs body fs).1.status_code = 500) := by
  refine ⟨responseWire_shape _, responseWire_status_line _, handle_request_status env fs data,
    ?_, ?_, ?_, ?_, ?_⟩
  · intro h
    simp only [handle_request, h]
  · intro i hi hdec
    simp only [handle_request, hi, hdec]
  · intro i text hi hdec hlen
    simp only [handle_request, hi, hdec]
    rw [if_pos hlen]
  · intro hio F hne hsome
    simp only [handle_delete, List.cons_append, List.nil_append, List.drop_succ_cons,
      List.drop_zero]
    rw [if_neg (by simp [hne, Option.isNone_iff_eq_none]; exact Option.isSome_iff_ne_none.mp hsome)]
    rw [hio]
    simp [build_response]
  · intro hio hdrs body f hct hx hne
    rw [handle_upload_raw_eq env fs hdrs body f hct hx hne]
    simp [uploadFinish, hne, hio, build_response]

/-- Witness for C9: the three 400 cases and the two 500 cases at
concrete inputs. -/
theorem handle_request_total_witness :
    handle_request env0 [] [1] =
      (build_response env0 400 (strCodes "Bad Request")
        (.str (strCodes "Malformed HTTP request")) [], []) ∧
    handle_request env0 [] [255, 13, 10, 13, 10] =
      (build_response env0 400 (strCodes "Bad Request")
        (.str (strCodes "Request parsing error: " ++ env0.errText)) [], []) ∧
    handle_request env0 [] (strCodes "GET\r\n\r\n") =
      (build_response env0 400 (strCodes "Bad Request")
        (.str (strCodes "Invalid HTTP request line")) [], []) ∧
    (handle_delete env1 [(strCodes "f", [1])] ([47] ++ strCodes "f") []).1.status_code =
      500 ∧
    (handle_upload env1 [(strCodes "x-upload-filename", strCodes "f")] [] []).1.status_code =
      500 := by
  refine ⟨?_, ?_, ?_, ?_, ?_⟩
  · exact (handle_request_total env0 [] [1]).2.2.2.1 (by decide)
  · exact (handle_request_total env0 [] [255, 13, 10, 13, 10]).2.2.2.2.1 1
      (by decide) (by decide)
  · exact (handle_request_total env0 [] (strCodes "GET\r\n\r\n")).2.2.2.2.2.1 3
      (strCodes "GET") (by decide) (by decide) (by decide)
  · exact (handle_request_total env1 [(strCodes "f", [1])] []).2.2.2.2.2.2.1 rfl
      (strCodes "f") (by decide) (by decide)
  · exact (handle_request_total env1 [] []).2.2.2.2.2.2.2 rfl
      [(strCodes "x-upload-filename", strCodes "f")] [] (strCodes "f")
      (by decide) (by decide) (by decide)

/-!
 ## C10 — case-insensitive method routing
-/

theorem findSub_prepend (m r : List Nat) (h : Nat) (t : List Nat)
    (hm : ∀ c ∈ m, c ≠ h) :
    findSub (h :: t) (m ++ r) = (findSub (h :: t) r).map (· + m.length) := by
  induction m with
  | nil =>
    cases hx : findSub (h :: t) r <;> simp [hx]
  | cons a m ih =>
    rw [List.cons_append]
    simp only [findSub]
    rw [listStartsWith_cons_false h a t _
      (fun he => hm a (List.mem_cons_self a m) he.symm)]
    simp only [Bool.false_eq_true, if_false]
    rw [ih (fun c hc => hm c (List.mem_cons_of_mem a hc))]
    cases findSub (h :: t) r <;> simp [Nat.add_assoc]

theorem take_prepend (m r : List Nat) (j : Nat) :
    (m ++ r).take (m.length + j) = m ++ r.take j := by
  induction m with
  | nil => simp
  | cons a m ih =>
    have hlen : (a :: m).length + j = (m.length + j) + 1 := by
      simp [List.length_cons]; omega
    rw [hlen, List.cons_append, List.take_succ_cons, ih, List.cons_append]

theorem drop_prepend (m r : List Nat) (j : Nat) :
    (m ++ r).drop (m.length + j) = r.drop j := by
  induction m with
  | nil => simp
  | cons a m ih =>
    have hlen : (a :: m).length + j = (m.length + j) + 1 := by
      simp [List.length_cons]; omega
    rw [hlen, List.cons_append, List.drop_succ_cons, ih]

theorem utf8DecodeAux_ascii_prepend :
    ∀ (m : List Nat) (F : Nat) (r : List Nat), (∀ c ∈ m, c < 128) →
      utf8DecodeAux (m.length + F) (m ++ r) =
        (utf8DecodeAux F r).map (fun u => m ++ u) := by
  intro m
  induction m with
  | nil =>
    intro F r _
    cases hx : utf8DecodeAux F r <;> simp [hx]
  | cons a m ih =>
    intro F r hm
    have hlen : (a :: m).length + F = (m.length + F) + 1 := by
      simp [List.length_cons]; omega
    rw [hlen, List.cons_append]
    simp only [utf8DecodeAux]
    rw [if_pos (hm a (List.mem_cons_self a m)),
      ih F r (fun c hc => hm c (List.mem_cons_of_mem a hc))]
    cases hx : utf8DecodeAux F r <;> simp [hx]

theorem utf8Decode_ascii_prepend (m r : List Nat) (hm : ∀ c ∈ m, c < 128) :
    utf8Decode (m ++ r) = (utf8Decode r).map (fun u => m ++ u) := by
  unfold utf8Decode
  rw [List.length_append]
  exact utf8DecodeAux_ascii_prepend m r.length r hm

theorem splitSepAux_acc (sep : List Nat) :
    ∀ (fuel : Nat) (l acc : List Nat),
      splitSepAux sep fuel acc l =
        (acc ++ (splitSepAux sep fuel [] l).headD []) ::
          (splitSepAux sep fuel [] l).tail := by
  intro fuel
  induction fuel with
  | zero => intro l acc; simp [splitSepAux]
  | succ fuel ih =>
    intro l acc
    cases l with
    | nil => simp [splitSepAux]
    | cons a rest =>
      simp only [splitSepAux]
      by_cases hst : listStartsWith sep (a :: rest) = true
      · simp [hst]
      · have h2 := ih rest (acc ++ [a])
        have h3 := ih rest [a]
        simp only [Bool.not_eq_true] at hst
        simp [hst, h2, h3, List.append_assoc]

theorem splitSepAux_prepend (h : Nat) (t : List Nat) :
    ∀ (m : List Nat) (F : Nat) (acc l : List Nat), (∀ c ∈ m, c ≠ h) →
      splitSepAux (h :: t) (m.length + F) acc (m ++ l) =
        splitSepAux (h :: t) F (acc ++ m) l := by
  intro m
  induction m with
  | nil => intro F acc l _; simp
  | cons a m ih =>
    intro F acc l hm
    have hlen : (a :: m).length + F = (m.length + F) + 1 := by
      simp [List.length_cons]; omega
    rw [hlen, List.cons_append]
    simp only [splitSepAux]
    rw [listStartsWith_cons_false h a t _
      (fun he => hm a (List.mem_cons_self a m) he.symm)]
    simp only [Bool.false_eq_true, if_false]
    rw [ih F (acc ++ [a]) l (fun c hc => hm c (List.mem_cons_of_mem a hc))]
    congr 1
    simp

theorem splitSep_prepend (h : Nat) (t : List Nat) (m l : List Nat)
    (hm : ∀ c ∈ m, c ≠ h) :
    splitSep (h :: t) (m ++ l) =
      (m ++ (splitSep (h :: t) l).headD []) :: (splitSep (h :: t) l).tail := by
  unfold splitSep
  rw [List.length_append, splitSepAux_prepend h t m l.length [] l hm, List.nil_append]
  exact splitSepAux_acc (h :: t) l.length l m

theorem listStartsWith_single (a : Nat) (l : List Nat) :
    listStartsWith [a] (a :: l) = true :=
  decide_eq_true rfl

theorem splitSep_space_cons (m l : List Nat) (hm : ∀ c ∈ m, c ≠ 32) :
    splitSep [32] (m ++ 32 :: l) = m :: splitSep [32] l := by
  unfold splitSep
  rw [List.length_append, show (32 :: l).length = l.length + 1 from by simp,
    splitSepAux_prepend 32 [] m (l.length + 1) [] (32 :: l) hm, List.nil_append]
  simp only [splitSepAux]
  rw [if_pos (listStartsWith_single 32 l)]
  simp

theorem charCaseEq_sound (a b : Nat) (h : charCaseEq a b = true) :
    upperChar a = upperChar b ∧ (a < 128 ∧ a ≠ 13 ∧ a ≠ 32) ∧
      (b < 128 ∧ b ≠ 13 ∧ b ≠ 32) := by
  rw [charCaseEq, Bool.or_eq_true] at h
  rcases h with h | h
  · simp only [Bool.and_eq_true, isAsciiLetterB, Bool.or_eq_true,
      decide_eq_true_eq, beq_iff_eq] at h
    obtain ⟨⟨ha, hb⟩, hup⟩ := h
    refine ⟨hup, ?_, ?_⟩
    · rcases ha with ⟨h1, h2⟩ | ⟨h1, h2⟩ <;> exact ⟨by omega, by omega, by omega⟩
    · rcases hb with ⟨h1, h2⟩ | ⟨h1, h2⟩ <;> exact ⟨by omega, by omega, by omega⟩
  · simp only [Bool.and_eq_true, beq_iff_eq, decide_eq_true_eq, Bool.not_eq_true',
      beq_eq_false_iff_ne, ne_eq] at h
    obtain ⟨⟨⟨⟨hab, h128⟩, h13⟩, h10⟩, h32⟩ := h
    subst hab
    exact ⟨rfl, ⟨h128, h13, h32⟩, ⟨h128, h13, h32⟩⟩

theorem methodCaseEq_sound :
    ∀ m1 m2, methodCaseEq m1 m2 = true →
      pyUpper m1 = pyUpper m2 ∧
      (∀ c ∈ m1, c < 128 ∧ c ≠ 13 ∧ c ≠ 32) ∧
      (∀ c ∈ m2, c < 128 ∧ c ≠ 13 ∧ c ≠ 32) := by
  intro m1
  induction m1 with
  | nil =>
    intro m2 h
    cases m2 with
    | nil => exact ⟨rfl, by simp, by simp⟩
    | cons b bs => simp [methodCaseEq] at h
  | cons a as ih =>
    intro m2 h
    cases m2 with
    | nil => simp [methodCaseEq] at h
    | cons b bs =>
      rw [methodCaseEq, Bool.and_eq_true] at h
      obtain ⟨hab, hrest⟩ := h
      obtain ⟨hup, h1, h2⟩ := ih bs hrest
      obtain ⟨hchar, ha, hb⟩ := charCaseEq_sound a b hab
      refine ⟨?_, ?_, ?_⟩
      · simp only [pyUpper, List.map_cons] at hup ⊢
        rw [hchar, hup]
      · intro c hc
        rcases List.mem_cons.mp hc with rfl | hmem
        · exact ha
        · exact h1 c hmem
      · intro c hc
        rcases List.mem_cons.mp hc with rfl | hmem
        · exact hb
        · exact h2 c hmem

theorem handle_request_method_extract (env : Env) (fs : FileStore) (m tail : List Nat)
    (hm : ∀ c ∈ m, c < 128 ∧ c ≠ 13 ∧ c ≠ 32) :
    handle_request env fs (m ++ 32 :: tail) =
      handleRequestAfterMethod env fs (pyUpper m) tail := by
  have hm13 : ∀ c ∈ m, c ≠ 13 := fun c hc => (hm c hc).2.1
  have hm32 : ∀ c ∈ m, c ≠ 32 := fun c hc => (hm c hc).2.2
  have hm128 : ∀ c ∈ m, c < 128 := fun c hc => (hm c hc).1
  simp only [handle_request, handleRequestAfterMethod]
  rw [findSub_prepend m (32 :: tail) 13 [10, 13, 10] hm13]
  cases hF : findSub [13, 10, 13, 10] (32 :: tail) with
  | none => rfl
  | some i =>
    simp only [Option.map_some']
    rw [show i + m.length = m.length + i from Nat.add_comm i m.length, take_prepend]
    rw [utf8Decode_ascii_prepend m _ hm128]
    have hi1 : listStartsWith [13, 10, 13, 10] (32 :: tail) = false :=
      listStartsWith_cons_false 13 32 _ _ (by omega)
    rw [findSub, hi1] at hF
    simp only [Bool.false_eq_true, if_false] at hF
    obtain ⟨j, hj, rfl⟩ : ∃ j, findSub [13, 10, 13, 10] tail = some j ∧ i = j + 1 := by
      cases hx : findSub [13, 10, 13, 10] tail with
      | none => rw [hx] at hF; simp at hF
      | some j =>
        rw [hx] at hF
        simp only [Option.map_some', Option.some.injEq] at hF
        exact ⟨j, rfl, hF.symm⟩
    rw [List.take_succ_cons]
    rw [show (32 : Nat) :: tail.take j = [32] ++ tail.take j from rfl,
      utf8Decode_ascii_prepend [32] _ (by intro c hc; simp at hc; omega)]
    cases hD : utf8Decode (tail.take j) with
    | none => rfl
    | some u =>
      simp only [Option.map_some']
      rw [show ([32] : List Nat) ++ u = 32 :: u from rfl]
      rw [splitSep_prepend 13 [10] m (32 :: u) hm13]
      rw [show ((32 : Nat) :: u) = [32] ++ u from rfl,
        splitSep_prepend 13 [10] [32] u (by simp)]
      simp only [List.headD_cons, List.tail_cons, List.singleton_append]
      rw [splitSep_space_cons m ((splitSep [13, 10] u).headD []) hm32]
      simp only [List.headD_cons, List.tail_cons, List.length_cons, List.drop_succ_cons,
        List.drop_zero]
      by_cases hlen : (splitSep [32] ((splitSep [13, 10] u).headD [])).length + 1 < 3
      · rw [if_pos hlen, if_pos hlen]
      · rw [if_neg hlen, if_neg hlen]
        rw [show m.length + (j + 1) + 4 = m.length + (j + 1 + 4) from by omega, drop_prepend]
        rw [show j + 1 + 4 = (j + 4) + 1 from by omega, List.drop_succ_cons]
        rfl

/-- C10: routing is case-insensitive in the method: the method token is
upper-cased before dispatch (`handle_request` on `m ++ " " ++ tail`
computes `handleRequestAfterMethod` of `pyUpper m`), so two request
buffers that differ only in the ASCII letter case of the method token
(e.g. `get` vs `GET`) produce identical results — the same routing
decision on the same path, headers and body. -/
theorem method_case_insensitive_routing (env : Env) (fs : FileStore)
    (m1 m2 tail : List Nat) (h : methodCaseEq m1 m2 = true) :
    pyUpper m1 = pyUpper m2 ∧
    handle_request env fs (m1 ++ 32 :: tail) =
      handleRequestAfterMethod env fs (pyUpper m1) tail ∧
    handle_request env fs (m1 ++ 32 :: tail) = handle_request env fs (m2 ++ 32 :: tail) := by
  obtain ⟨hup, h1, h2⟩ := methodCaseEq_sound m1 m2 h
  refine ⟨hup, handle_request_method_extract env fs m1 tail h1, ?_⟩
  rw [handle_request_method_extract env fs m1 tail h1,
    handle_request_method_extract env fs m2 tail h2, hup]

/-- Witness for C10: `get /status ...` and `GeT /status ...` produce the
same response. -/
theorem method_case_insensitive_routing_witness :
    handle_request env0 [] (strCodes "get" ++ 32 :: strCodes "/status HTTP/1.1\r\n\r\n") =
      handle_request env0 [] (strCodes "GeT" ++ 32 :: strCodes "/status HTTP/1.1\r\n\r\n") :=
  (method_case_insensitive_routing env0 [] (strCodes "get") (strCodes "GeT")
    (strCodes "/status HTTP/1.1\r\n\r\n") (by decide)).2.2

end Progjar5
